import Mathlib

/-!
Verification of the fashion-item-recommender data scraper.

Shallow embedding of the pure cores of:
* `data_scraper/scrapers/brand_crawler.py` (product-id harvest),
* `data_scraper/scrapers/product_scraper.py` (field and image-URL extraction),
* `data_scraper/utils/image_downloader.py` (bounded image download),
* `data_scraper/pipeline.py` (persistence and summary).

Strings are modelled as `List Char`.  The browser/network layer is modelled
by explicit page data: the href attributes of the anchors a selector
returns, per-field selector outcomes, and a download oracle
`Nat → Str → Option Str` mapping (index, url) to the stored path of a
successful fetch (`none` on any per-URL failure: HTTP error, timeout or
image-decode failure).  Each definition mirrors the cited Python
function; exceptions raised inside a `try` block are modelled by explicit
boolean failure flags on the page data.
-/

namespace Scraper

abbrev Str := List Char

/-! ### brand_crawler.py: `_extract_product_ids` -/

/-- The literal part of the pattern `r'/products/(\d+)'`. -/
def prodPat : Str := "/products/".toList

/-- `re.search(r'/products/(\d+)', href)`: scan positions left to right;
at the first position where the literal `/products/` matches and is
followed by at least one digit, capture the maximal digit run (`\d+` is
greedy).  Positions where the literal matches but no digit follows do not
match the regex and scanning continues. -/
def extractId : Str → Option Str
  | [] => none
  | c :: rest =>
    if prodPat.isPrefixOf (c :: rest) then
      let ds := ((c :: rest).drop prodPat.length).takeWhile Char.isDigit
      if ds.isEmpty then extractId rest else some ds
    else extractId rest

/-- The guard `if max_products and len(product_ids) >= max_products`:
Python truthiness makes `max_products = 0` (like `None`) disable the cap. -/
def capReached (maxProducts : Option Nat) (n : Nat) : Bool :=
  match maxProducts with
  | none => false
  | some k => if k = 0 then false else decide (n ≥ k)

/-- Loop of `_extract_product_ids`: for each anchor href, extract the id;
append it when not already collected; break once the cap is reached. -/
def extractIdsLoop (maxProducts : Option Nat) : List Str → List Str → List Str
  | [], acc => acc
  | href :: rest, acc =>
    match extractId href with
    | none => extractIdsLoop maxProducts rest acc
    | some pid =>
      if pid ∈ acc then
        extractIdsLoop maxProducts rest acc
      else
        let acc2 := acc ++ [pid]
        if capReached maxProducts acc2.length then acc2
        else extractIdsLoop maxProducts rest acc2

/-- `_extract_product_ids(max_products)` applied to the href attributes of
the anchors matched by `a[href*="/products/"]` on the current page. -/
def extract_product_ids (hrefs : List Str) (maxProducts : Option Nat) : List Str :=
  extractIdsLoop maxProducts hrefs []

/-- Specification-level dedup, accumulator form: keep the first occurrence
of each element, preserving order of first appearance. -/
def firstDedupAux : List Str → List Str → List Str
  | acc, [] => acc
  | acc, x :: xs => if x ∈ acc then firstDedupAux acc xs else firstDedupAux (acc ++ [x]) xs

/-- Keep the first occurrence of each element, in order of first appearance. -/
def firstDedup (l : List Str) : List Str := firstDedupAux [] l

/-! ### product_scraper.py: `_extract_image_urls` -/

/-- The small-size thumbnail marker `'_125.'`. -/
def smallMarker : Str := "_125.".toList

/-- The large-size marker `'_500.'`. -/
def largeMarker : Str := "_500.".toList

/-- Python's `str.replace('_125.', '_500.')`: replace every non-overlapping
occurrence, scanning left to right.  The fuel argument (≥ the length of the
string) only makes the recursion structural; `replace125` supplies it. -/
def replace125Fuel : Nat → Str → Str
  | _, [] => []
  | 0, s => s
  | fuel + 1, c :: rest =>
    if smallMarker.isPrefixOf (c :: rest) then
      largeMarker ++ replace125Fuel fuel ((c :: rest).drop smallMarker.length)
    else
      c :: replace125Fuel fuel rest

/-- `src.replace('_125.', '_500.')` — the thumbnail-to-original rewrite. -/
def replace125 (s : Str) : Str := replace125Fuel s.length s

/-- `pat` occurs as a contiguous segment of the string. -/
def hasSeg (pat : Str) : Str → Bool
  | [] => decide (pat = [])
  | c :: rest => pat.isPrefixOf (c :: rest) || hasSeg pat rest

/-- `src.startswith('http')`. -/
def startsHttp (s : Str) : Bool := "http".toList.isPrefixOf s

/-- One product page's image elements, as the three selector queries return
them: `src` attributes of `div.product-img img`, `ul.product_thumb img`
and `div.detail_info img` (an element may lack the attribute: `none`).
`detailOk` models the inner `try` around the scroll-and-collect of detail
images: `false` means that block raised and was caught, skipping them. -/
structure ImagePage where
  mains : List (Option Str)
  thumbs : List (Option Str)
  details : List (Option Str)
  detailOk : Bool

/-- `if src and src.startswith('http')`: keep an src attribute only when
present and external. -/
def keepSrc : Option Str → Option Str
  | none => none
  | some src => if startsHttp src then some src else none

/-- `if u not in image_urls: image_urls.append(u)`. -/
def addIfNew (acc : List Str) (u : Str) : List Str :=
  if u ∈ acc then acc else acc ++ [u]

/-- Thumbnail step: rewrite `'_125.'` to `'_500.'`, then append if new. -/
def addThumb (acc : List Str) (src : Option Str) : List Str :=
  match keepSrc src with
  | none => acc
  | some v => addIfNew acc (replace125 v)

/-- Detail-image step: append if new (no rewrite). -/
def addDetail (acc : List Str) (src : Option Str) : List Str :=
  match keepSrc src with
  | none => acc
  | some v => addIfNew acc v

/-- After the main-image loop: kept main srcs, appended unconditionally. -/
def mainUrls (p : ImagePage) : List Str := p.mains.filterMap keepSrc

/-- After the thumbnail loop. -/
def mainThumbUrls (p : ImagePage) : List Str := p.thumbs.foldl addThumb (mainUrls p)

/-- `_extract_image_urls`: mains, then rewritten thumbnails, then (when the
scroll block succeeds) detail images. -/
def extract_image_urls (p : ImagePage) : List Str :=
  if p.detailOk then p.details.foldl addDetail (mainThumbUrls p) else mainThumbUrls p

/-! ### image_downloader.py: `download_images` -/

/-- `urls[:max_images] if max_images else urls`: `max_images = 0` (like
`None`) is falsy, so no truncation happens then. -/
def truncateUrls (maxImages : Option Nat) (urls : List Str) : List Str :=
  match maxImages with
  | none => urls
  | some k => if k = 0 then urls else urls.take k

/-- The `for idx, url in enumerate(urls_to_download)` loop: one
`download_image` attempt per URL (the oracle `fetch idx url` is that
attempt, for the fixed product id), collecting only successes. -/
def downloadLoop (fetch : Nat → Str → Option Str) : Nat → List Str → List Str
  | _, [] => []
  | i, u :: rest =>
    match fetch i u with
    | some p => p :: downloadLoop fetch (i + 1) rest
    | none => downloadLoop fetch (i + 1) rest

/-- `download_images(urls, product_id, max_images)`. -/
def download_images (urls : List Str) (maxImages : Option Nat)
    (fetch : Nat → Str → Option Str) : List Str :=
  downloadLoop fetch 0 (truncateUrls maxImages urls)

/-- The (index, url) pairs the loop passes to `download_image`, i.e. the
enumeration of the truncated list — the attempt trace. -/
def downloadAttempts (urls : List Str) (maxImages : Option Nat) : List (Nat × Str) :=
  (truncateUrls maxImages urls).enum

/-! ### product_scraper.py: `_extract_product_info` and `scrape_product` -/

/-- Record values: the Python dict holds strings, lists of strings, and one
integer (`image_count`). -/
inductive Val where
  | s (v : Str)
  | sl (v : List Str)
  | n (v : Nat)
deriving DecidableEq

/-- A Python dict with string keys, in insertion order (each key written
at most once here, so `List.lookup` is dict access). -/
abbrev Record := List (Str × Val)

def kProductId : Str := "product_id".toList
def kUrl : Str := "url".toList
def kProductName : Str := "product_name".toList
def kBrand : Str := "brand".toList
def kPrice : Str := "price".toList
def kDiscountRate : Str := "discount_rate".toList
def kDescription : Str := "description".toList
def kCategories : Str := "categories".toList
def kImageUrls : Str := "image_urls".toList
def kImageCount : Str := "image_count".toList
def kDownloadedImages : Str := "downloaded_images".toList
def kTargetBrand : Str := "target_brand".toList

/-- Outcome of one per-field `try` block: `.error ()` if the block raised
(caught by its `except: pass`), `.ok none` if the selector missed, and
`.ok (some v)` if it matched an element whose stripped text is `v`. -/
abbrev FieldSel := Except Unit (Option Str)

/-- One optional scalar field: the key is written only when the selector
matched. -/
def fieldEntry (k : Str) (sel : FieldSel) : Record :=
  match sel with
  | .ok (some v) => [(k, Val.s v)]
  | _ => []

/-- The categories field: texts of `p.product_article span`; written only
when the list is non-empty (`if categories:`). -/
def catEntry (sel : Except Unit (List Str)) : Record :=
  match sel with
  | .ok cats => if cats.isEmpty then [] else [(kCategories, Val.sl cats)]
  | .error _ => []

/-- Selector outcomes for one product page.  `pageOk = false` models an
exception in the outer `try` (fetching `page.content()` / parsing), which
is caught after the required keys were already set. -/
structure InfoSelectors where
  pageOk : Bool
  product_name : FieldSel
  brand : FieldSel
  price : FieldSel
  discount_rate : FieldSel
  description : FieldSel
  categories : Except Unit (List Str)

/-- `_extract_product_info`: required keys first, then each optional field
from its own isolated `try` block. -/
def extract_product_info (productId pageUrl : Str) (sel : InfoSelectors) : Record :=
  [(kProductId, Val.s productId), (kUrl, Val.s pageUrl)] ++
    (if sel.pageOk then
      fieldEntry kProductName sel.product_name ++
      fieldEntry kBrand sel.brand ++
      fieldEntry kPrice sel.price ++
      fieldEntry kDiscountRate sel.discount_rate ++
      fieldEntry kDescription sel.description ++
      catEntry sel.categories
    else [])

/-- Expected dict value of one optional scalar field. -/
def fieldValue (pageOk : Bool) (sel : FieldSel) : Option Val :=
  if pageOk then
    match sel with
    | .ok (some v) => some (Val.s v)
    | _ => none
  else none

/-- Expected dict value of the categories field. -/
def catValue (pageOk : Bool) (sel : Except Unit (List Str)) : Option Val :=
  if pageOk then
    match sel with
    | .ok cats => if cats.isEmpty then none else some (Val.sl cats)
    | .error _ => none
  else none

/-- Inputs of one `scrape_product` call.  `navOk = false` models an
exception in the outer `try` (navigation/render failure): the whole
product is skipped and `None` returned. -/
structure ScrapeInputs where
  navOk : Bool
  pageUrl : Str
  info : InfoSelectors
  images : ImagePage

/-- `scrape_product(product_id, download_images)`: build the record, add
`image_urls`/`image_count`, and — when download was requested and at least
one URL was found — add `downloaded_images` with whatever `download_images`
returned (the download call itself never raises: per-URL failures give
`none` from the oracle and are skipped). -/
def scrape_product (productId : Str) (inp : ScrapeInputs) (downloadReq : Bool)
    (maxImages : Option Nat) (fetch : Nat → Str → Option Str) : Option Record :=
  if inp.navOk then
    let base := extract_product_info productId inp.pageUrl inp.info
    let urls := extract_image_urls inp.images
    let rec1 := base ++ [(kImageUrls, Val.sl urls), (kImageCount, Val.n urls.length)]
    if downloadReq ∧ ¬ urls.isEmpty then
      some (rec1 ++ [(kDownloadedImages, Val.sl (download_images urls maxImages fetch))])
    else
      some rec1
  else none

/-! ### pipeline.py: `save_to_csv`, `save_to_json`, `get_summary` -/

/-- Effect of one save call: the returned path (`None` when nothing was
saved) and the file writes performed (path, records serialized). -/
structure SaveOutcome where
  ret : Option Str
  writes : List (Str × List Record)

def defaultCsvName (timestamp : Str) : Str :=
  "musinsa_products_".toList ++ timestamp ++ ".csv".toList

def defaultJsonName (timestamp : Str) : Str :=
  "musinsa_products_".toList ++ timestamp ++ ".json".toList

/-- `Config.CSV_OUTPUT_PATH / filename`. -/
def outPath (outputDir fn : Str) : Str := outputDir ++ ['/'] ++ fn

/-- `save_to_csv(filename)`: on empty results, warn and return `None`
without writing; otherwise write one CSV file and return its path. -/
def save_to_csv (outputDir : Str) (results : List Record) (filename : Option Str)
    (timestamp : Str) : SaveOutcome :=
  if results.isEmpty then ⟨none, []⟩
  else
    let fn := filename.getD (defaultCsvName timestamp)
    ⟨some (outPath outputDir fn), [(outPath outputDir fn, results)]⟩

/-- `save_to_json(filename)`: same empty-check, JSON default name. -/
def save_to_json (outputDir : Str) (results : List Record) (filename : Option Str)
    (timestamp : Str) : SaveOutcome :=
  if results.isEmpty then ⟨none, []⟩
  else
    let fn := filename.getD (defaultJsonName timestamp)
    ⟨some (outPath outputDir fn), [(outPath outputDir fn, results)]⟩

/-- The save methods read `self.results` but never assign to it; as a state
transformer each returns the state unchanged. -/
def saveCsvStep (outputDir : Str) (results : List Record) (filename : Option Str)
    (timestamp : Str) : SaveOutcome × List Record :=
  (save_to_csv outputDir results filename timestamp, results)

def saveJsonStep (outputDir : Str) (results : List Record) (filename : Option Str)
    (timestamp : Str) : SaveOutcome × List Record :=
  (save_to_json outputDir results filename timestamp, results)

/-- Python truthiness of a dict value. -/
def Val.truthy : Val → Bool
  | .s v => ¬ v.isEmpty
  | .sl v => ¬ v.isEmpty
  | .n v => v ≠ 0

/-- `r.get(key)` is truthy. -/
def truthyLookup (k : Str) (r : Record) : Bool :=
  match r.lookup k with
  | none => false
  | some v => v.truthy

/-- `r.get('image_count', 0)` (always stored as a number when present). -/
def imageCountOf (r : Record) : Nat :=
  match r.lookup kImageCount with
  | some (Val.n v) => v
  | _ => 0

/-- `key in df.columns`: some record has the key. -/
def hasColumn (k : Str) (results : List Record) : Bool :=
  results.any (fun r => (r.lookup k).isSome)

/-- The column's non-missing string values, in record order. -/
def columnValues (k : Str) (results : List Record) : List Str :=
  results.filterMap (fun r =>
    match r.lookup k with
    | some (Val.s v) => some v
    | _ => none)

/-- `df[col].value_counts().to_dict()`: value → frequency pairs (pandas
orders them by descending count; the claims do not depend on the order, so
pairs are listed by first appearance here). -/
def valueCounts (vs : List Str) : List (Str × Nat) :=
  (firstDedup vs).map (fun v => (v, vs.count v))

/-- The `{"message": ...}` no-data dict vs. the populated summary dict. -/
inductive Summary where
  | noData (message : Str)
  | report (total : Nat) (withImages : Nat) (totalImages : Nat)
      (brands : Option (List (Str × Nat))) (targetBrands : Option (List (Str × Nat)))

def noDataMessage : Str := "수집된 데이터가 없습니다.".toList

/-- `get_summary()`. -/
def get_summary (results : List Record) : Summary :=
  if results.isEmpty then .noData noDataMessage
  else
    .report results.length
      (results.countP (fun r => truthyLookup kDownloadedImages r))
      ((results.map imageCountOf).sum)
      (if hasColumn kBrand results then some (valueCounts (columnValues kBrand results))
       else none)
      (if hasColumn kTargetBrand results then some (valueCounts (columnValues kTargetBrand results))
       else none)

/-! ### brand_crawler.py: `search_brand_products`, `get_brand_products_multi` -/

/-- One brand-search attempt, as the browser presents it.  `navFails`: some
statement of the outer `try` raised (navigation, fill, wait, ...) — caught,
logged, `[]` returned.  `hasSearchInput`: the query for
`input[type="search"], input.search-input` found an element.
`filterClickFails`: the brand-filter click raised — caught by its inner
`try`, search results used as-is (no effect on the result).  `hrefs`: the
anchor hrefs of the final results page. -/
structure BrandSearchPage where
  navFails : Bool
  hasSearchInput : Bool
  filterClickFails : Bool
  hrefs : List Str

/-- `search_brand_products(brand_name, max_products)`.  When no exception
occurs but the search input is not found, the `if search_input:` body is
skipped and the function falls off the end, returning Python `None` —
modelled as `none` (the annotated return type is `List[str]`). -/
def search_brand_products (p : BrandSearchPage) (maxProducts : Option Nat) :
    Option (List Str) :=
  if p.navFails then some []
  else if p.hasSearchInput then some (extract_product_ids p.hrefs maxProducts)
  else none

/-- `get_brand_products_multi(brand_names, max_products_per_brand)`: one
search per brand, every brand mapped in the result dict (insertion order),
no early exit. -/
def get_brand_products_multi (brands : List (Str × BrandSearchPage))
    (maxProducts : Option Nat) : List (Str × Option (List Str)) :=
  brands.map (fun bp => (bp.1, search_brand_products bp.2 maxProducts))

/-! ### Concrete inputs used by counterexamples and witnesses -/

/-- A page whose two main image elements carry the same external src. -/
def dupMainPage : ImagePage :=
  { mains := [some "http://img.example.com/a.jpg".toList,
              some "http://img.example.com/a.jpg".toList]
    thumbs := []
    details := []
    detailOk := true }

/-- A thumbnail URL in which the small-size marker occurs twice. -/
def twoMarkerUrl : Str := "http://img.example.com/x_125.y_125.jpg".toList

/-- A download oracle for which every attempt fails. -/
def failFetch : Nat → Str → Option Str := fun _ _ => none

/-- A brand-search page where nothing raises but the search-input selector
finds no element. -/
def missingSearchInputPage : BrandSearchPage :=
  { navFails := false
    hasSearchInput := false
    filterClickFails := false
    hrefs := ["/products/111".toList] }

/-- Anchor hrefs with ids 10, 20, 10, 30: three distinct ids, one repeat. -/
def exampleHrefs : List Str :=
  ["/products/10".toList, "/products/20".toList,
   "/products/10".toList, "/products/30".toList]

/-- Five candidate image URLs. -/
def fiveUrls : List Str :=
  ["http://img.example.com/1.jpg".toList, "http://img.example.com/2.jpg".toList,
   "http://img.example.com/3.jpg".toList, "http://img.example.com/4.jpg".toList,
   "http://img.example.com/5.jpg".toList]

/-- A download oracle where only attempt 0 succeeds. -/
def firstOnlyFetch : Nat → Str → Option Str := fun i _ =>
  if i = 0 then some "/data/images/123/123_0.jpg".toList else none

/-- Selector outcomes where every optional field misses. -/
def emptySelectors : InfoSelectors :=
  { pageOk := true
    product_name := .ok none
    brand := .ok none
    price := .ok none
    discount_rate := .ok none
    description := .ok none
    categories := .ok [] }

/-- A page with exactly one (main) image. -/
def oneImagePage : ImagePage :=
  { mains := [some "http://img.example.com/solo.jpg".toList]
    thumbs := []
    details := []
    detailOk := true }

/-- `scrape_product` inputs whose page renders fine and has one image. -/
def oneImageInputs : ScrapeInputs :=
  { navOk := true
    pageUrl := "https://www.musinsa.com/products/123".toList
    info := emptySelectors
    images := oneImagePage }

/-- Main, thumbnail and detail images where the rewritten thumbnail URL
collides with the main image URL. -/
def collisionPage : ImagePage :=
  { mains := [some "http://img.example.com/a_500.jpg".toList]
    thumbs := [some "http://img.example.com/a_125.jpg".toList,
               some "http://img.example.com/b_125.jpg".toList]
    details := [some "http://img.example.com/d.jpg".toList]
    detailOk := true }

/-- A brand-search page whose outer `try` raises. -/
def navFailBrandPage : BrandSearchPage :=
  { navFails := true
    hasSearchInput := true
    filterClickFails := false
    hrefs := [] }

/-- A brand-search page where everything works. -/
def okBrandPage : BrandSearchPage :=
  { navFails := false
    hasSearchInput := true
    filterClickFails := false
    hrefs := ["/products/222".toList] }

/-! ## Lemmas about the harvest loop -/

theorem firstDedupAux_sub (l : List Str) :
    ∀ acc : List Str, ∃ t, firstDedupAux acc l = acc ++ t := by
  induction l with
  | nil => intro acc; exact ⟨[], by simp [firstDedupAux]⟩
  | cons x xs ih =>
    intro acc
    by_cases hx : x ∈ acc
    · obtain ⟨t, ht⟩ := ih acc
      exact ⟨t, by simpa [firstDedupAux, hx] using ht⟩
    · obtain ⟨t, ht⟩ := ih (acc ++ [x])
      exact ⟨x :: t, by simpa [firstDedupAux, hx] using ht⟩

theorem firstDedupAux_nodup (l : List Str) :
    ∀ acc : List Str, acc.Nodup → (firstDedupAux acc l).Nodup := by
  induction l with
  | nil => intro acc h; simpa [firstDedupAux] using h
  | cons x xs ih =>
    intro acc h
    by_cases hx : x ∈ acc
    · simpa [firstDedupAux, hx] using ih acc h
    · have : (acc ++ [x]).Nodup := by
        simp [List.nodup_append, h, hx]
      simpa [firstDedupAux, hx] using ih (acc ++ [x]) this

theorem firstDedupAux_mem (l : List Str) :
    ∀ acc x, (x ∈ firstDedupAux acc l ↔ x ∈ acc ∨ x ∈ l) := by
  induction l with
  | nil => intro acc x; simp [firstDedupAux]
  | cons y ys ih =>
    intro acc x
    by_cases hy : y ∈ acc
    · rw [firstDedupAux, if_pos hy, ih]
      constructor
      · rintro (h | h)
        · exact Or.inl h
        · exact Or.inr (List.mem_cons_of_mem _ h)
      · rintro (h | h)
        · exact Or.inl h
        · rcases List.mem_cons.mp h with rfl | h
          · exact Or.inl hy
          · exact Or.inr h
    · rw [firstDedupAux, if_neg hy, ih]
      simp only [List.mem_append, List.mem_cons, List.mem_singleton]
      tauto

theorem firstDedup_nodup (l : List Str) : (firstDedup l).Nodup :=
  firstDedupAux_nodup l [] List.nodup_nil

theorem firstDedup_mem (l : List Str) (x : Str) : x ∈ firstDedup l ↔ x ∈ l := by
  rw [firstDedup, firstDedupAux_mem]
  simp

/-- With no cap, the harvest loop computes exactly first-occurrence dedup. -/
theorem extractIdsLoop_none (hrefs : List Str) :
    ∀ acc, extractIdsLoop none hrefs acc = firstDedupAux acc (hrefs.filterMap extractId) := by
  induction hrefs with
  | nil => intro acc; simp [extractIdsLoop, firstDedupAux]
  | cons href rest ih =>
    intro acc
    cases h : extractId href with
    | none => simp [extractIdsLoop, h, ih, List.filterMap_cons]
    | some pid =>
      by_cases hp : pid ∈ acc
      · simp [extractIdsLoop, h, hp, ih, List.filterMap_cons, firstDedupAux]
      · simp [extractIdsLoop, h, hp, ih, List.filterMap_cons, firstDedupAux, capReached]

/-- The harvest loop never duplicates an id, whatever the cap. -/
theorem extractIdsLoop_nodup (maxProducts : Option Nat) (hrefs : List Str) :
    ∀ acc : List Str, acc.Nodup → (extractIdsLoop maxProducts hrefs acc).Nodup := by
  induction hrefs with
  | nil => intro acc h; simpa [extractIdsLoop] using h
  | cons href rest ih =>
    intro acc h
    cases he : extractId href with
    | none => simpa [extractIdsLoop, he] using ih acc h
    | some pid =>
      by_cases hp : pid ∈ acc
      · simpa [extractIdsLoop, he, hp] using ih acc h
      · have h2 : (acc ++ [pid]).Nodup := by
          simp [List.nodup_append, h, hp]
        by_cases hcap : capReached maxProducts (acc.length + 1) = true
        · simpa [extractIdsLoop, he, hp, hcap] using h2
        · simpa [extractIdsLoop, he, hp, hcap] using ih (acc ++ [pid]) h2

/-- With a positive cap `k`, the loop yields the first `k` entries of the
first-occurrence dedup. -/
theorem extractIdsLoop_cap (k : Nat) (hk : 0 < k) (hrefs : List Str) :
    ∀ acc : List Str, acc.length < k →
      extractIdsLoop (some k) hrefs acc = (firstDedupAux acc (hrefs.filterMap extractId)).take k := by
  induction hrefs with
  | nil =>
    intro acc hacc
    simp [extractIdsLoop, firstDedupAux, List.take_of_length_le (le_of_lt hacc)]
  | cons href rest ih =>
    intro acc hacc
    cases he : extractId href with
    | none => simp [extractIdsLoop, he, ih acc hacc, List.filterMap_cons]
    | some pid =>
      by_cases hp : pid ∈ acc
      · simp [extractIdsLoop, he, hp, ih acc hacc, List.filterMap_cons, firstDedupAux]
      · have hk0 : ¬ k = 0 := by omega
        by_cases hcap : acc.length + 1 = k
        · have hc : capReached (some k) (acc.length + 1) = true := by
            simp [capReached, hk0]
            omega
          obtain ⟨t, ht⟩ := firstDedupAux_sub (rest.filterMap extractId) (acc ++ [pid])
          have hlen : (acc ++ [pid]).length = k := by simpa using hcap
          have hL : extractIdsLoop (some k) (href :: rest) acc = acc ++ [pid] := by
            simp [extractIdsLoop, he, hp, hc]
          rw [hL, List.filterMap_cons, he, firstDedupAux, if_neg hp, ht,
            List.take_left' hlen]
        · have hc : capReached (some k) (acc.length + 1) = false := by
            simp [capReached, hk0]
            omega
          have hlt : (acc ++ [pid]).length < k := by simp; omega
          have hL : extractIdsLoop (some k) (href :: rest) acc
              = extractIdsLoop (some k) rest (acc ++ [pid]) := by
            simp [extractIdsLoop, he, hp, hc]
          rw [hL, ih (acc ++ [pid]) hlt, List.filterMap_cons, he, firstDedupAux, if_neg hp]

/-- A cap of zero behaves exactly like no cap in the harvest loop. -/
theorem extractIdsLoop_zero (hrefs : List Str) :
    ∀ acc, extractIdsLoop (some 0) hrefs acc = extractIdsLoop none hrefs acc := by
  induction hrefs with
  | nil => intro acc; simp [extractIdsLoop]
  | cons href rest ih =>
    intro acc
    cases he : extractId href with
    | none => simp [extractIdsLoop, he, ih]
    | some pid =>
      by_cases hp : pid ∈ acc
      · simp [extractIdsLoop, he, hp, ih]
      · simp [extractIdsLoop, he, hp, ih, capReached]

/-- In a duplicate-free list, a member is counted exactly once (stated for
the default `BEq Str` instance used throughout). -/
theorem nodupCountOne (l : List Str) (x : Str) (hnd : l.Nodup) (hx : x ∈ l) :
    l.count x = 1 := by
  induction l with
  | nil => cases hx
  | cons y ys ih =>
    rcases List.mem_cons.mp hx with rfl | hx'
    · rw [List.count_cons_self, List.count_eq_zero.mpr (List.nodup_cons.mp hnd).1]
    · have hy : x ≠ y := by
        rintro rfl
        exact (List.nodup_cons.mp hnd).1 hx'
      rw [List.count_cons_of_ne hy]
      exact ih (List.nodup_cons.mp hnd).2 hx'

/-! ## C1, C2, C10 -/

/-- C1: for every page content, `_extract_product_ids` (uncapped) returns
each extracted product id exactly once, in order of first appearance —
it equals the first-occurrence dedup of the extracted ids, is
duplicate-free under every cap, and counts each extracted id once. -/
theorem C1_id_dedup_first_occurrence (hrefs : List Str) :
    extract_product_ids hrefs none = firstDedup (hrefs.filterMap extractId)
    ∧ (∀ maxProducts, (extract_product_ids hrefs maxProducts).Nodup)
    ∧ (∀ pid ∈ hrefs.filterMap extractId, (extract_product_ids hrefs none).count pid = 1) := by
  refine ⟨extractIdsLoop_none hrefs [], fun maxProducts => ?_, fun pid hpid => ?_⟩
  · exact extractIdsLoop_nodup maxProducts hrefs [] List.nodup_nil
  · have hmem : pid ∈ extract_product_ids hrefs none := by
      rw [extract_product_ids, extractIdsLoop_none hrefs []]
      exact (firstDedup_mem _ _).mpr hpid
    have hnd : (extract_product_ids hrefs none).Nodup :=
      extractIdsLoop_nodup none hrefs [] List.nodup_nil
    exact nodupCountOne _ _ hnd hmem

/-- C1 witness: ids 10, 20, 10, 30 harvest to 10, 20, 30, each counted once. -/
theorem C1_id_dedup_first_occurrence_witness :
    extract_product_ids exampleHrefs none = firstDedup (exampleHrefs.filterMap extractId)
    ∧ (extract_product_ids exampleHrefs none).count "10".toList = 1 :=
  ⟨(C1_id_dedup_first_occurrence exampleHrefs).1,
   (C1_id_dedup_first_occurrence exampleHrefs).2.2 "10".toList (by decide)⟩

/-- C2: with a positive cap `k` and more than `k` distinct ids on the page,
`_extract_product_ids` returns exactly the first `k` distinct ids in order
of first appearance (`k = 0` is treated by the code as "no cap", see C10). -/
theorem C2_cap_exact (hrefs : List Str) (k : Nat) (hk : 0 < k)
    (hmore : k < (firstDedup (hrefs.filterMap extractId)).length) :
    (extract_product_ids hrefs (some k)).length = k
    ∧ extract_product_ids hrefs (some k)
        = (firstDedup (hrefs.filterMap extractId)).take k := by
  have he : extract_product_ids hrefs (some k)
      = (firstDedup (hrefs.filterMap extractId)).take k :=
    extractIdsLoop_cap k hk hrefs [] (by simpa using hk)
  refine ⟨?_, he⟩
  rw [he, List.length_take]
  omega

/-- C2 witness: ids 10, 20, 10, 30 capped at 2 give exactly 10, 20. -/
theorem C2_cap_exact_witness :
    (extract_product_ids exampleHrefs (some 2)).length = 2
    ∧ extract_product_ids exampleHrefs (some 2)
        = (firstDedup (exampleHrefs.filterMap extractId)).take 2 :=
  C2_cap_exact exampleHrefs 2 (by decide) (by decide)

/-- C10: a cap of 0 disables the limit instead of emptying the result:
`_extract_product_ids` with `max_products = 0` behaves like the uncapped
call (returning all distinct ids), and `download_images` with
`max_images = 0` does not truncate, attempting every URL. -/
theorem C10_zero_disables_limits :
    (∀ hrefs, extract_product_ids hrefs (some 0) = extract_product_ids hrefs none)
    ∧ (∀ hrefs, extract_product_ids hrefs (some 0) = firstDedup (hrefs.filterMap extractId))
    ∧ (∀ urls, truncateUrls (some 0) urls = urls)
    ∧ (∀ urls fetch, download_images urls (some 0) fetch = download_images urls none fetch) := by
  have h0 : ∀ hrefs, extract_product_ids hrefs (some 0) = extract_product_ids hrefs none :=
    fun hrefs => extractIdsLoop_zero hrefs []
  refine ⟨h0, fun hrefs => ?_, fun urls => rfl, fun urls fetch => rfl⟩
  rw [h0 hrefs]
  exact extractIdsLoop_none hrefs []

/-! ## Lemmas about the download loop, and C6 -/

/-- The download loop collects exactly the successes of one attempt per
enumerated URL, in order. -/
theorem downloadLoop_filterMap (fetch : Nat → Str → Option Str) (l : List Str) :
    ∀ i : Nat, downloadLoop fetch i l = (l.enumFrom i).filterMap (fun p => fetch p.1 p.2) := by
  induction l with
  | nil => intro i; simp [downloadLoop]
  | cons u rest ih =>
    intro i
    cases hf : fetch i u with
    | none => simp [downloadLoop, List.enumFrom, hf, ih]
    | some p => simp [downloadLoop, List.enumFrom, hf, ih]

/-- C6: with a positive `max_images = m`, `download_images` first truncates
the input to its first `m` URLs, attempts exactly those (each once, in
order: the attempt trace is the enumeration of the truncated list, of
length at most `m`), and returns the successful attempts' paths in attempt
order (`m = 0` is treated by the code as "no limit", see C10). -/
theorem C6_download_truncation (urls : List Str) (m : Nat) (hm : 0 < m)
    (fetch : Nat → Str → Option Str) :
    downloadAttempts urls (some m) = (urls.take m).enum
    ∧ (downloadAttempts urls (some m)).length ≤ m
    ∧ download_images urls (some m) fetch
        = (downloadAttempts urls (some m)).filterMap (fun p => fetch p.1 p.2) := by
  have ht : truncateUrls (some m) urls = urls.take m := by
    rw [truncateUrls, if_neg (by omega)]
  refine ⟨by rw [downloadAttempts, ht], ?_, ?_⟩
  · rw [downloadAttempts, ht, List.enum_length, List.length_take]
    omega
  · rw [download_images, ht, downloadAttempts, ht, List.enum, downloadLoop_filterMap]

/-- C6 witness: 5 input URLs with `max_images = 2` attempt exactly the
first 2 URLs (indices 0 and 1), whatever the outcomes; only the successful
attempt's path is returned. -/
theorem C6_download_truncation_witness :
    (downloadAttempts fiveUrls (some 2) = (fiveUrls.take 2).enum
      ∧ (downloadAttempts fiveUrls (some 2)).length ≤ 2
      ∧ download_images fiveUrls (some 2) firstOnlyFetch
          = (downloadAttempts fiveUrls (some 2)).filterMap
              (fun p => firstOnlyFetch p.1 p.2))
    ∧ (downloadAttempts fiveUrls (some 2)).length = 2
    ∧ download_images fiveUrls (some 2) firstOnlyFetch
        = ["/data/images/123/123_0.jpg".toList] :=
  ⟨C6_download_truncation fiveUrls 2 (by decide) firstOnlyFetch, by decide, by decide⟩

/-! ## Lemmas about the thumbnail rewrite, and C4 -/

/-- Fuel only drives the recursion: any fuel at least the string length
computes the same result. -/
theorem replace125Fuel_congr :
    ∀ (f1 f2 : Nat) (s : Str), s.length ≤ f1 → s.length ≤ f2 →
      replace125Fuel f1 s = replace125Fuel f2 s := by
  intro f1
  induction f1 with
  | zero =>
    intro f2 s h1 _
    have hs : s = [] := List.eq_nil_of_length_eq_zero (Nat.le_zero.mp h1)
    subst hs
    simp [replace125Fuel]
  | succ f1 ih =>
    intro f2 s h1 h2
    cases s with
    | nil => simp [replace125Fuel]
    | cons c rest =>
      cases f2 with
      | zero => simp at h2
      | succ f2 =>
        by_cases hpre : smallMarker.isPrefixOf (c :: rest) = true
        · have h5 : smallMarker.length = 5 := rfl
          have hlen : ((c :: rest).drop smallMarker.length).length ≤ f1 := by
            simp only [List.length_drop, List.length_cons, h5]
            simp only [List.length_cons] at h1
            omega
          have hlen2 : ((c :: rest).drop smallMarker.length).length ≤ f2 := by
            simp only [List.length_drop, List.length_cons, h5]
            simp only [List.length_cons] at h2
            omega
          simp only [replace125Fuel, hpre, if_true]
          rw [ih f2 _ hlen hlen2]
        · have hlen : rest.length ≤ f1 := by simp at h1; omega
          have hlen2 : rest.length ≤ f2 := by simp at h2; omega
          simp only [replace125Fuel, hpre, Bool.false_eq_true, if_false]
          rw [ih f2 rest hlen hlen2]

/-- Unfolding step when the marker matches at the head. -/
theorem replace125_step_match (s : Str) (h : smallMarker.isPrefixOf s = true) :
    replace125 s = largeMarker ++ replace125 (s.drop smallMarker.length) := by
  have hlen : smallMarker.length ≤ s.length :=
    (List.isPrefixOf_iff_prefix.mp h).length_le
  have h5 : smallMarker.length = 5 := rfl
  cases s with
  | nil => simp [h5] at hlen
  | cons c rest =>
    show replace125Fuel (rest.length + 1) (c :: rest) = _
    rw [replace125Fuel]
    simp only [h, if_true]
    rw [replace125]
    exact congrArg (largeMarker ++ ·)
      (replace125Fuel_congr rest.length ((c :: rest).drop smallMarker.length).length _
        (by simp only [List.length_drop, List.length_cons]; omega) (le_refl _))

/-- Unfolding step when the marker does not match at the head. -/
theorem replace125_step_nomatch (c : Char) (rest : Str)
    (h : smallMarker.isPrefixOf (c :: rest) = false) :
    replace125 (c :: rest) = c :: replace125 rest := by
  show replace125Fuel (rest.length + 1) (c :: rest) = _
  rw [replace125Fuel]
  simp only [h, Bool.false_eq_true, if_false]
  rfl

/-- A string without the marker is left unchanged by the rewrite. -/
theorem replace125_no_occurrence (s : Str) (h : hasSeg smallMarker s = false) :
    replace125 s = s := by
  induction s with
  | nil => rfl
  | cons c rest ih =>
    rw [hasSeg, Bool.or_eq_false_iff] at h
    rw [replace125_step_nomatch c rest h.1, ih h.2]

/-- The rewrite rewrites the leftmost marker occurrence in place: if no
occurrence starts before position `a.length`, the prefix `a` is copied
verbatim, the marker is replaced, and rewriting continues on the rest. -/
theorem replace125_append (a b : Str)
    (ha : ∀ i, i < a.length →
      smallMarker.isPrefixOf ((a ++ smallMarker ++ b).drop i) = false) :
    replace125 (a ++ smallMarker ++ b) = a ++ largeMarker ++ replace125 b := by
  induction a with
  | nil =>
    simp only [List.nil_append]
    rw [replace125_step_match (smallMarker ++ b)
      (List.isPrefixOf_iff_prefix.mpr (List.prefix_append _ _)), List.drop_left]
  | cons c a' ih =>
    have h0 : smallMarker.isPrefixOf (c :: (a' ++ smallMarker ++ b)) = false := by
      have := ha 0 (by simp)
      simpa using this
    have ha' : ∀ i, i < a'.length →
        smallMarker.isPrefixOf ((a' ++ smallMarker ++ b).drop i) = false := by
      intro i hi
      have := ha (i + 1) (by simp; omega)
      simpa using this
    simp only [List.cons_append]
    rw [replace125_step_nomatch c _ h0, ih ha']

/-- C4 counterexample: on a thumbnail URL containing the marker twice, the
rewrite replaces BOTH occurrences; the claim's "exactly once, all other
segments unchanged" would give one of the two single-replacement results,
and the code produces neither. -/
theorem C4_counterexample :
    replace125 twoMarkerUrl = "http://img.example.com/x_500.y_500.jpg".toList
    ∧ replace125 twoMarkerUrl ≠ "http://img.example.com/x_500.y_125.jpg".toList
    ∧ replace125 twoMarkerUrl ≠ "http://img.example.com/x_125.y_500.jpg".toList := by
  decide

/-- C4 amended: `str.replace('_125.', '_500.')` replaces every
left-to-right occurrence of the marker; in particular, on a URL containing
the marker exactly once (no occurrence starting inside the prefix, none in
the suffix), it is replaced exactly once with all other segments
unchanged. -/
theorem C4_thumbnail_rewrite (a b : Str)
    (ha : ∀ i, i < a.length →
      smallMarker.isPrefixOf ((a ++ smallMarker ++ b).drop i) = false)
    (hb : hasSeg smallMarker b = false) :
    replace125 (a ++ smallMarker ++ b) = a ++ largeMarker ++ b := by
  rw [replace125_append a b ha, replace125_no_occurrence b hb]

/-- C4 witness: `http://img.example.com/x_125.jpg` rewrites to
`http://img.example.com/x_500.jpg`. -/
theorem C4_thumbnail_rewrite_witness :
    replace125 ("http://img.example.com/x".toList ++ smallMarker ++ "jpg".toList)
      = "http://img.example.com/x".toList ++ largeMarker ++ "jpg".toList :=
  C4_thumbnail_rewrite "http://img.example.com/x".toList "jpg".toList
    (by decide) (by decide)

/-! ## Lemmas about the image-URL merge, and C3 -/

theorem addIfNew_nodup (acc : List Str) (u : Str) (h : acc.Nodup) :
    (addIfNew acc u).Nodup := by
  by_cases hu : u ∈ acc
  · simpa [addIfNew, hu] using h
  · simp [addIfNew, hu, List.nodup_append, h]

theorem addIfNew_sub (acc : List Str) (u : Str) : acc <+: addIfNew acc u := by
  by_cases hu : u ∈ acc
  · simp [addIfNew, hu]
  · rw [addIfNew, if_neg hu]
    exact List.prefix_append acc [u]

theorem addThumb_nodup (acc : List Str) (src : Option Str) (h : acc.Nodup) :
    (addThumb acc src).Nodup := by
  rw [addThumb]
  cases keepSrc src with
  | none => exact h
  | some v => exact addIfNew_nodup acc _ h

theorem addThumb_sub (acc : List Str) (src : Option Str) : acc <+: addThumb acc src := by
  rw [addThumb]
  cases keepSrc src with
  | none => exact List.prefix_refl acc
  | some v => exact addIfNew_sub acc _

theorem addDetail_nodup (acc : List Str) (src : Option Str) (h : acc.Nodup) :
    (addDetail acc src).Nodup := by
  rw [addDetail]
  cases keepSrc src with
  | none => exact h
  | some v => exact addIfNew_nodup acc v h

theorem addDetail_sub (acc : List Str) (src : Option Str) : acc <+: addDetail acc src := by
  rw [addDetail]
  cases keepSrc src with
  | none => exact List.prefix_refl acc
  | some v => exact addIfNew_sub acc v

theorem foldl_addThumb_nodup (l : List (Option Str)) :
    ∀ acc, acc.Nodup → (l.foldl addThumb acc).Nodup := by
  induction l with
  | nil => intro acc h; simpa using h
  | cons s rest ih =>
    intro acc h
    exact ih (addThumb acc s) (addThumb_nodup acc s h)

theorem foldl_addThumb_sub (l : List (Option Str)) :
    ∀ acc, acc <+: l.foldl addThumb acc := by
  induction l with
  | nil => intro acc; exact List.prefix_refl acc
  | cons s rest ih =>
    intro acc
    exact (addThumb_sub acc s).trans (ih (addThumb acc s))

theorem foldl_addDetail_nodup (l : List (Option Str)) :
    ∀ acc, acc.Nodup → (l.foldl addDetail acc).Nodup := by
  induction l with
  | nil => intro acc h; simpa using h
  | cons s rest ih =>
    intro acc h
    exact ih (addDetail acc s) (addDetail_nodup acc s h)

theorem foldl_addDetail_sub (l : List (Option Str)) :
    ∀ acc, acc <+: l.foldl addDetail acc := by
  induction l with
  | nil => intro acc; exact List.prefix_refl acc
  | cons s rest ih =>
    intro acc
    exact (addDetail_sub acc s).trans (ih (addDetail acc s))

/-- C3 counterexample: when the two main image elements carry the same
external src, `_extract_image_urls` keeps BOTH copies — main srcs are
appended without a membership check, so the result has a duplicate URL
string, contradicting "contains no duplicate URL strings, including the
case where main image URLs repeat among themselves". -/
theorem C3_counterexample : ¬ (extract_image_urls dupMainPage).Nodup := by decide

/-- C3 amended: discovery order main-then-thumbnail-then-detail is
preserved (each stage extends the previous one on the right), rewritten
thumbnail URLs and detail URLs are added only when not already present —
but main URLs are appended unconditionally, so the full result is
duplicate-free only under the hypothesis that the kept main srcs are
themselves distinct. -/
theorem C3_image_merge_order (p : ImagePage) (hm : (mainUrls p).Nodup) :
    (extract_image_urls p).Nodup
    ∧ mainUrls p <+: mainThumbUrls p
    ∧ mainThumbUrls p <+: extract_image_urls p := by
  have hthumbN : (mainThumbUrls p).Nodup := foldl_addThumb_nodup p.thumbs (mainUrls p) hm
  have hthumbS : mainUrls p <+: mainThumbUrls p := foldl_addThumb_sub p.thumbs (mainUrls p)
  cases hd : p.detailOk
  · rw [extract_image_urls, hd]
    exact ⟨hthumbN, hthumbS, List.prefix_refl _⟩
  · rw [extract_image_urls, hd]
    exact ⟨foldl_addDetail_nodup p.details _ hthumbN, hthumbS,
      foldl_addDetail_sub p.details _⟩

/-- C3 witness: distinct main URL, a thumbnail whose rewritten URL collides
with the main URL (skipped), a second thumbnail (kept, rewritten) and one
detail URL (appended last). -/
theorem C3_image_merge_order_witness :
    ((extract_image_urls collisionPage).Nodup
      ∧ mainUrls collisionPage <+: mainThumbUrls collisionPage
      ∧ mainThumbUrls collisionPage <+: extract_image_urls collisionPage)
    ∧ extract_image_urls collisionPage
        = ["http://img.example.com/a_500.jpg".toList,
           "http://img.example.com/b_500.jpg".toList,
           "http://img.example.com/d.jpg".toList] :=
  ⟨C3_image_merge_order collisionPage (by decide), by decide⟩

/-! ## Dict-lookup lemmas for records -/

theorem lookup_cons_self (k : Str) (v : Val) (rest : Record) :
    List.lookup k ((k, v) :: rest) = some v := by
  simp [List.lookup_cons]

theorem lookup_cons_ne (k k' : Str) (v : Val) (rest : Record) (h : k ≠ k') :
    List.lookup k ((k', v) :: rest) = List.lookup k rest := by
  have hb : (k == k') = false := beq_eq_false_iff_ne.mpr h
  simp [List.lookup_cons, hb]

theorem lookup_append_none (k : Str) (l1 l2 : Record) (h : List.lookup k l1 = none) :
    List.lookup k (l1 ++ l2) = List.lookup k l2 := by
  induction l1 with
  | nil => simp
  | cons hd tl ih =>
    obtain ⟨a, b⟩ := hd
    rw [List.cons_append, List.lookup_cons]
    rw [List.lookup_cons] at h
    cases hab : (k == a)
    · rw [hab] at h
      exact ih h
    · rw [hab] at h
      simp at h

theorem lookup_fieldEntry_ne (k k' : Str) (sel : FieldSel) (rest : Record) (h : k ≠ k') :
    List.lookup k (fieldEntry k' sel ++ rest) = List.lookup k rest := by
  rcases sel with u | o
  · simp [fieldEntry]
  · rcases o with _ | v
    · simp [fieldEntry]
    · rw [fieldEntry, List.singleton_append]
      exact lookup_cons_ne k k' (Val.s v) rest h

theorem lookup_fieldEntry_self (k : Str) (sel : FieldSel) (rest : Record) :
    List.lookup k (fieldEntry k sel ++ rest)
      = match sel with
        | .ok (some v) => some (Val.s v)
        | _ => List.lookup k rest := by
  rcases sel with u | o
  · simp [fieldEntry]
  · rcases o with _ | v
    · simp [fieldEntry]
    · rw [fieldEntry, List.singleton_append]
      exact lookup_cons_self k (Val.s v) rest

theorem lookup_catEntry_ne (k : Str) (sel : Except Unit (List Str)) (h : k ≠ kCategories) :
    List.lookup k (catEntry sel) = none := by
  rcases sel with u | cats
  · simp [catEntry]
  · cases hc : cats.isEmpty
    · rw [catEntry]
      simp only [hc, Bool.false_eq_true, if_false]
      rw [show ([(kCategories, Val.sl cats)] : Record) = (kCategories, Val.sl cats) :: [] from rfl,
        lookup_cons_ne k kCategories (Val.sl cats) [] h]
      rfl
    · simp [catEntry, hc]

theorem lookup_catEntry_self (sel : Except Unit (List Str)) :
    List.lookup kCategories (catEntry sel)
      = match sel with
        | .ok cats => if cats.isEmpty then none else some (Val.sl cats)
        | .error _ => none := by
  rcases sel with u | cats
  · simp [catEntry]
  · cases hc : cats.isEmpty
    · rw [catEntry]
      simp only [hc, Bool.false_eq_true, if_false]
      exact lookup_cons_self kCategories (Val.sl cats) []
    · simp [catEntry, hc]

/-- Skipping the whole optional-field chain when the key matches none of
its keys. -/
theorem lookup_chain_none (k : Str) (s1 s2 s3 s4 s5 : FieldSel)
    (s6 : Except Unit (List Str))
    (h1 : k ≠ kProductName) (h2 : k ≠ kBrand) (h3 : k ≠ kPrice)
    (h4 : k ≠ kDiscountRate) (h5 : k ≠ kDescription) (h6 : k ≠ kCategories) :
    List.lookup k (fieldEntry kProductName s1 ++ fieldEntry kBrand s2
      ++ fieldEntry kPrice s3 ++ fieldEntry kDiscountRate s4
      ++ fieldEntry kDescription s5 ++ catEntry s6) = none := by
  simp only [List.append_assoc]
  rw [lookup_fieldEntry_ne _ _ _ _ h1, lookup_fieldEntry_ne _ _ _ _ h2,
    lookup_fieldEntry_ne _ _ _ _ h3, lookup_fieldEntry_ne _ _ _ _ h4,
    lookup_fieldEntry_ne _ _ _ _ h5]
  exact lookup_catEntry_ne k s6 h6

/-- Any key other than the eight written by `_extract_product_info` is
absent from its record. -/
theorem lookup_info_other (k productId pageUrl : Str) (sel : InfoSelectors)
    (h0 : k ≠ kProductId) (h1 : k ≠ kUrl)
    (h2 : k ≠ kProductName) (h3 : k ≠ kBrand) (h4 : k ≠ kPrice)
    (h5 : k ≠ kDiscountRate) (h6 : k ≠ kDescription) (h7 : k ≠ kCategories) :
    List.lookup k (extract_product_info productId pageUrl sel) = none := by
  rw [extract_product_info, List.cons_append, List.singleton_append,
    lookup_cons_ne _ _ _ _ h0, lookup_cons_ne _ _ _ _ h1]
  cases hok : sel.pageOk
  · simp
  · simp only [if_true]
    exact lookup_chain_none k _ _ _ _ _ _ h2 h3 h4 h5 h6 h7

/-! ## C7 -/

/-- C7: fields of `_extract_product_info` are extracted independently.
The record always carries `product_id` and `url`; each optional field's
value is a function of that field's own selector outcome alone (so a miss
or error in one field cannot affect another), and on a selector miss or a
per-field error the key is simply absent (`none`) — never present with a
placeholder. -/
theorem C7_field_independence (productId pageUrl : Str) (sel : InfoSelectors) :
    (extract_product_info productId pageUrl sel).lookup kProductId = some (Val.s productId)
    ∧ (extract_product_info productId pageUrl sel).lookup kUrl = some (Val.s pageUrl)
    ∧ (extract_product_info productId pageUrl sel).lookup kProductName
        = fieldValue sel.pageOk sel.product_name
    ∧ (extract_product_info productId pageUrl sel).lookup kBrand
        = fieldValue sel.pageOk sel.brand
    ∧ (extract_product_info productId pageUrl sel).lookup kPrice
        = fieldValue sel.pageOk sel.price
    ∧ (extract_product_info productId pageUrl sel).lookup kDiscountRate
        = fieldValue sel.pageOk sel.discount_rate
    ∧ (extract_product_info productId pageUrl sel).lookup kDescription
        = fieldValue sel.pageOk sel.description
    ∧ (extract_product_info productId pageUrl sel).lookup kCategories
        = catValue sel.pageOk sel.categories := by
  have hrec : extract_product_info productId pageUrl sel
      = (kProductId, Val.s productId) :: (kUrl, Val.s pageUrl) ::
          (if sel.pageOk then
            fieldEntry kProductName sel.product_name ++
            fieldEntry kBrand sel.brand ++
            fieldEntry kPrice sel.price ++
            fieldEntry kDiscountRate sel.discount_rate ++
            fieldEntry kDescription sel.description ++
            catEntry sel.categories
          else []) := by
    rw [extract_product_info, List.cons_append, List.singleton_append]
  refine ⟨?_, ?_, ?_, ?_, ?_, ?_, ?_, ?_⟩
  · rw [hrec, lookup_cons_self]
  · rw [hrec, lookup_cons_ne _ _ _ _ (by decide), lookup_cons_self]
  · rw [hrec, lookup_cons_ne _ _ _ _ (by decide), lookup_cons_ne _ _ _ _ (by decide)]
    cases hok : sel.pageOk
    · simp [fieldValue]
    · simp only [if_true, List.append_assoc]
      rw [lookup_fieldEntry_self]
      rcases hs : sel.product_name with u | o
      · rw [lookup_fieldEntry_ne _ _ _ _ (by decide), lookup_fieldEntry_ne _ _ _ _ (by decide),
          lookup_fieldEntry_ne _ _ _ _ (by decide), lookup_fieldEntry_ne _ _ _ _ (by decide),
          lookup_catEntry_ne _ _ (by decide)]
        simp [fieldValue]
      · rcases o with _ | v
        · rw [lookup_fieldEntry_ne _ _ _ _ (by decide), lookup_fieldEntry_ne _ _ _ _ (by decide),
            lookup_fieldEntry_ne _ _ _ _ (by decide), lookup_fieldEntry_ne _ _ _ _ (by decide),
            lookup_catEntry_ne _ _ (by decide)]
          simp [fieldValue]
        · simp [fieldValue]
  · rw [hrec, lookup_cons_ne _ _ _ _ (by decide), lookup_cons_ne _ _ _ _ (by decide)]
    cases hok : sel.pageOk
    · simp [fieldValue]
    · simp only [if_true, List.append_assoc]
      rw [lookup_fieldEntry_ne _ _ _ _ (by decide), lookup_fieldEntry_self]
      rcases hs : sel.brand with u | o
      · rw [lookup_fieldEntry_ne _ _ _ _ (by decide), lookup_fieldEntry_ne _ _ _ _ (by decide),
          lookup_fieldEntry_ne _ _ _ _ (by decide), lookup_catEntry_ne _ _ (by decide)]
        simp [fieldValue]
      · rcases o with _ | v
        · rw [lookup_fieldEntry_ne _ _ _ _ (by decide), lookup_fieldEntry_ne _ _ _ _ (by decide),
            lookup_fieldEntry_ne _ _ _ _ (by decide), lookup_catEntry_ne _ _ (by decide)]
          simp [fieldValue]
        · simp [fieldValue]
  · rw [hrec, lookup_cons_ne _ _ _ _ (by decide), lookup_cons_ne _ _ _ _ (by decide)]
    cases hok : sel.pageOk
    · simp [fieldValue]
    · simp only [if_true, List.append_assoc]
      rw [lookup_fieldEntry_ne _ _ _ _ (by decide), lookup_fieldEntry_ne _ _ _ _ (by decide),
        lookup_fieldEntry_self]
      rcases hs : sel.price with u | o
      · rw [lookup_fieldEntry_ne _ _ _ _ (by decide), lookup_fieldEntry_ne _ _ _ _ (by decide),
          lookup_catEntry_ne _ _ (by decide)]
        simp [fieldValue]
      · rcases o with _ | v
        · rw [lookup_fieldEntry_ne _ _ _ _ (by decide), lookup_fieldEntry_ne _ _ _ _ (by decide),
            lookup_catEntry_ne _ _ (by decide)]
          simp [fieldValue]
        · simp [fieldValue]
  · rw [hrec, lookup_cons_ne _ _ _ _ (by decide), lookup_cons_ne _ _ _ _ (by decide)]
    cases hok : sel.pageOk
    · simp [fieldValue]
    · simp only [if_true, List.append_assoc]
      rw [lookup_fieldEntry_ne _ _ _ _ (by decide), lookup_fieldEntry_ne _ _ _ _ (by decide),
        lookup_fieldEntry_ne _ _ _ _ (by decide), lookup_fieldEntry_self]
      rcases hs : sel.discount_rate with u | o
      · rw [lookup_fieldEntry_ne _ _ _ _ (by decide), lookup_catEntry_ne _ _ (by decide)]
        simp [fieldValue]
      · rcases o with _ | v
        · rw [lookup_fieldEntry_ne _ _ _ _ (by decide), lookup_catEntry_ne _ _ (by decide)]
          simp [fieldValue]
        · simp [fieldValue]
  · rw [hrec, lookup_cons_ne _ _ _ _ (by decide), lookup_cons_ne _ _ _ _ (by decide)]
    cases hok : sel.pageOk
    · simp [fieldValue]
    · simp only [if_true, List.append_assoc]
      rw [lookup_fieldEntry_ne _ _ _ _ (by decide), lookup_fieldEntry_ne _ _ _ _ (by decide),
        lookup_fieldEntry_ne _ _ _ _ (by decide), lookup_fieldEntry_ne _ _ _ _ (by decide),
        lookup_fieldEntry_self]
      rcases hs : sel.description with u | o
      · rw [lookup_catEntry_ne _ _ (by decide)]
        simp [fieldValue]
      · rcases o with _ | v
        · rw [lookup_catEntry_ne _ _ (by decide)]
          simp [fieldValue]
        · simp [fieldValue]
  · rw [hrec, lookup_cons_ne _ _ _ _ (by decide), lookup_cons_ne _ _ _ _ (by decide)]
    cases hok : sel.pageOk
    · simp [catValue]
    · simp only [if_true, List.append_assoc]
      rw [lookup_fieldEntry_ne _ _ _ _ (by decide), lookup_fieldEntry_ne _ _ _ _ (by decide),
        lookup_fieldEntry_ne _ _ _ _ (by decide), lookup_fieldEntry_ne _ _ _ _ (by decide),
        lookup_fieldEntry_ne _ _ _ _ (by decide), lookup_catEntry_self]
      rcases hs : sel.categories with u | cats
      · simp [catValue]
      · simp [catValue]

/-! ## C5 -/

/-- C5 counterexample: download requested, one image URL found, every
individual download fails — yet the scraped record still carries the
`downloaded_images` key (with an empty list), because `scrape_product`
assigns the key unconditionally once the download branch is entered.  The
claim says the key should be absent when every download fails. -/
theorem C5_counterexample :
    (scrape_product "123".toList oneImageInputs true (some 10) failFetch).map
        (fun r => r.lookup kDownloadedImages) = some (some (Val.sl [])) := by
  decide

/-- C5 amended: for a successfully rendered page, the record carries the
`downloaded_images` key if and only if download was requested and at least
one image URL was found; its value is the list of successful download
paths, which may be empty when every download fails (the key is then
present with an empty list, not absent). -/
theorem C5_downloaded_images_key (productId : Str) (inp : ScrapeInputs)
    (downloadReq : Bool) (maxImages : Option Nat) (fetch : Nat → Str → Option Str)
    (hnav : inp.navOk = true) :
    ∃ r, scrape_product productId inp downloadReq maxImages fetch = some r
      ∧ r.lookup kDownloadedImages
          = (if downloadReq ∧ ¬ (extract_image_urls inp.images).isEmpty then
              some (Val.sl (download_images (extract_image_urls inp.images) maxImages fetch))
            else none) := by
  have hb : List.lookup kDownloadedImages
      (extract_product_info productId inp.pageUrl inp.info) = none :=
    lookup_info_other _ _ _ _ (by decide) (by decide) (by decide) (by decide)
      (by decide) (by decide) (by decide) (by decide)
  have h2 : List.lookup kDownloadedImages
      (extract_product_info productId inp.pageUrl inp.info ++
        [(kImageUrls, Val.sl (extract_image_urls inp.images)),
         (kImageCount, Val.n (extract_image_urls inp.images).length)]) = none := by
    rw [lookup_append_none _ _ _ hb, lookup_cons_ne _ _ _ _ (by decide),
      lookup_cons_ne _ _ _ _ (by decide)]
    rfl
  simp only [scrape_product, hnav, if_true]
  by_cases hg : downloadReq = true ∧ ¬ (extract_image_urls inp.images).isEmpty = true
  · rw [if_pos hg]
    refine ⟨_, rfl, ?_⟩
    rw [lookup_append_none _ _ _ h2, lookup_cons_self, if_pos hg]
  · rw [if_neg hg]
    refine ⟨_, rfl, ?_⟩
    rw [h2, if_neg hg]

/-- C5 witness: page renders, one image URL, first download succeeds — the
key is present with that path. -/
theorem C5_downloaded_images_key_witness :
    ∃ r, scrape_product "123".toList oneImageInputs true (some 10) firstOnlyFetch = some r
      ∧ r.lookup kDownloadedImages
          = some (Val.sl (download_images (extract_image_urls oneImagePage)
              (some 10) firstOnlyFetch)) := by
  obtain ⟨r, hr, hl⟩ :=
    C5_downloaded_images_key "123".toList oneImageInputs true (some 10) firstOnlyFetch rfl
  refine ⟨r, hr, ?_⟩
  rw [hl, if_pos ⟨rfl, by decide⟩]
  rfl

/-! ## C8 -/

/-- C8: with zero accumulated records, `save_to_csv` and `save_to_json`
return `None` and perform no file write, `get_summary` returns the
explicit no-data message dict (never a zero-filled report), and none of
the three operations changes the accumulated results. -/
theorem C8_empty_persistence (outputDir timestamp : Str) (fnCsv fnJson : Option Str) :
    save_to_csv outputDir [] fnCsv timestamp = ⟨none, []⟩
    ∧ save_to_json outputDir [] fnJson timestamp = ⟨none, []⟩
    ∧ get_summary [] = .noData noDataMessage
    ∧ (∀ results fn ts, (saveCsvStep outputDir results fn ts).2 = results)
    ∧ (∀ results fn ts, (saveJsonStep outputDir results fn ts).2 = results) :=
  ⟨rfl, rfl, rfl, fun _ _ _ => rfl, fun _ _ _ => rfl⟩

/-! ## C9 -/

/-- C9 evaluation at the failing input: an exception during the harvest is
caught and yields `[]` (first conjunct), but when no exception occurs and
the search-input selector simply finds nothing, `search_brand_products`
falls off the end and returns `None` instead of a sequence (second
conjunct); `get_brand_products_multi` then maps that brand to `None`
while still continuing with the remaining brands (third conjunct). -/
theorem C9_missing_search_input_returns_none :
    search_brand_products navFailBrandPage (some 5) = some []
    ∧ search_brand_products missingSearchInputPage (some 5) = none
    ∧ get_brand_products_multi
        [("brandA".toList, missingSearchInputPage), ("brandB".toList, okBrandPage)]
        (some 5)
      = [("brandA".toList, none), ("brandB".toList, some ["222".toList])] := by
  decide

end Scraper
